import Mathlib

/-!
Verification of the pkmnfeverdream core against its specification.

This file shallowly embeds the parts of the TypeScript sources that the
specification's testable properties talk about:

* `emulator/MemoryMap.ts`: the character map, `encodeString`, the WRAM
  address table and the `PARTYMON_STRUCT` fixed-offset layout;
* `battle/BattleTrigger.ts`: `buildPartyMon`, `setupTestBattle`,
  `getBattleResult`;
* `emulator/EmulatorWrapper.ts`: the breakpoint registry
  (`addBreakpoint` / `removeBreakpoint`) and the breakpoint-aware
  `runFrame` loop, modelled generically over the behaviour of the
  binjgb Memory/Execution port;
* `services/PokemonGenerationService.ts`: the pre-fetch queue
  (`prefetch`, `getNext`, `getNextIfReady`, task completion), modelled
  as a state machine whose atomic steps are the synchronous segments
  between `await` points of the single-threaded JS event loop;
* `battle/BattleController.ts`: `update`, `prepareNextPokemon`,
  `onLoadMonFrontSpriteBreakpoint`, `skipCurrentFunction`,
  `findRetAddress`, `injectSpriteSync`.

JavaScript `Uint8Array` element writes truncate to a byte; this is
modelled by storing `v % 256`.  Guest memory is modelled as a total
function `Nat → Nat`.
-/

namespace PkmnFever

/-- A `Uint8Array` element store: JS coerces the value with ToUint8,
i.e. reduces it modulo 256.  Out-of-range indices are silently ignored,
which is also `List.set`'s behaviour. -/
def setByte (a : List Nat) (i v : Nat) : List Nat :=
  a.set i (v % 256)

/-! ## MemoryMap.ts: character map and `encodeString` -/

/-- The pokered name character encoding table (`CHARMAP` in
`emulator/MemoryMap.ts`). -/
def CHARMAP : List (Char × Nat) :=
  [('A', 0x80), ('B', 0x81), ('C', 0x82), ('D', 0x83), ('E', 0x84), ('F', 0x85),
   ('G', 0x86), ('H', 0x87), ('I', 0x88), ('J', 0x89), ('K', 0x8A), ('L', 0x8B),
   ('M', 0x8C), ('N', 0x8D), ('O', 0x8E), ('P', 0x8F), ('Q', 0x90), ('R', 0x91),
   ('S', 0x92), ('T', 0x93), ('U', 0x94), ('V', 0x95), ('W', 0x96), ('X', 0x97),
   ('Y', 0x98), ('Z', 0x99),
   ('a', 0xA0), ('b', 0xA1), ('c', 0xA2), ('d', 0xA3), ('e', 0xA4), ('f', 0xA5),
   ('g', 0xA6), ('h', 0xA7), ('i', 0xA8), ('j', 0xA9), ('k', 0xAA), ('l', 0xAB),
   ('m', 0xAC), ('n', 0xAD), ('o', 0xAE), ('p', 0xAF), ('q', 0xB0), ('r', 0xB1),
   ('s', 0xB2), ('t', 0xB3), ('u', 0xB4), ('v', 0xB5), ('w', 0xB6), ('x', 0xB7),
   ('y', 0xB8), ('z', 0xB9),
   ('0', 0xF6), ('1', 0xF7), ('2', 0xF8), ('3', 0xF9), ('4', 0xFA),
   ('5', 0xFB), ('6', 0xFC), ('7', 0xFD), ('8', 0xFE), ('9', 0xFF),
   (' ', 0x7F),
   ('@', 0x50)]

/-- `CHARMAP[c]`: JS object lookup on the character map. -/
def charmapGet (c : Char) : Option Nat :=
  (CHARMAP.find? (fun p => p.1 == c)).map (fun p => p.2)

/-- `NAME_LENGTH = 11` (including terminator). -/
def NAME_LENGTH : Nat := 11

/-- The `for` loop of `encodeString`: `result[i] = CHARMAP[chars[i]] ?? 0x7F`. -/
def encodeChars (result : List Nat) (chars : List Char) (i : Nat) : List Nat :=
  match chars with
  | [] => result
  | c :: rest => encodeChars (setByte result i ((charmapGet c).getD 0x7F)) rest (i + 1)

/-- `encodeString(str, maxLen = NAME_LENGTH)` from `emulator/MemoryMap.ts`:
a `maxLen`-byte buffer (zero initialised), the first `maxLen - 1` characters
encoded via the character map (unknown characters become `0x7F`, space),
followed by the `0x50` string terminator. -/
def encodeString (str : List Char) (maxLen : Nat := NAME_LENGTH) : List Nat :=
  let chars := str.take (maxLen - 1)
  setByte (encodeChars (List.replicate maxLen 0) chars 0) chars.length 0x50

/-! ## MemoryMap.ts: WRAM addresses and the party-mon struct layout -/

namespace WRAM

def wEnemyMonSpecies2 : Nat := 0xCFD8
def wEnemyMonNick : Nat := 0xCFDA
def wEnemyMonSpecies : Nat := 0xCFE5
def wEnemyMonLevel : Nat := 0xCFF3
def wEnemyMonMoves : Nat := 0xCFED
def wEnemyMonBaseStats : Nat := 0xD002
def wIsInBattle : Nat := 0xD057
def wCurOpponent : Nat := 0xD059
def wBattleResult : Nat := 0xCF0B
def wPartyCount : Nat := 0xD163
def wPartySpecies : Nat := 0xD164
def wPartyMon1 : Nat := 0xD16B
def wPartyMon1Nick : Nat := 0xD2B5
def wPartyMon1OT : Nat := 0xD273
def wObtainedBadges : Nat := 0xD72A
def wCurEnemyLevel : Nat := 0xD127

end WRAM

namespace PARTYMON_STRUCT

def SPECIES : Nat := 0
def HP : Nat := 1
def BOX_LEVEL : Nat := 3
def STATUS : Nat := 4
def TYPE1 : Nat := 5
def TYPE2 : Nat := 6
def CATCH_RATE : Nat := 7
def MOVES : Nat := 8
def OT_ID : Nat := 12
def EXP : Nat := 14
def DVS : Nat := 27
def PP : Nat := 29
def LEVEL : Nat := 33
def MAX_HP : Nat := 34
def ATK : Nat := 36
def DEF : Nat := 38
def SPD : Nat := 40
def SPC : Nat := 42
def LENGTH : Nat := 44

end PARTYMON_STRUCT

/-! ## BattleTrigger.ts: `buildPartyMon` -/

/-- The options record taken by `buildPartyMon`. -/
structure PartyMonOptions where
  species : Nat
  level : Nat
  moves : Option (List Nat)
  hp : Option Nat
  maxHp : Option Nat

/-- `buildPartyMon` from `battle/BattleTrigger.ts`: fills the 44-byte
`PARTYMON_STRUCT` layout.  `Math.floor` on the float products
`level * 0.5` and `level * 0.4` agrees with natural division by 2 and
by 5/2 for every byte-sized level, so the derived stats are written as
exact natural-number divisions. -/
def buildPartyMon (options : PartyMonOptions) : List Nat :=
  let struct := List.replicate PARTYMON_STRUCT.LENGTH 0
  let species := options.species
  let level := options.level
  let moves := options.moves.getD [0x21, 0, 0, 0]
  let baseHp := ((level * 2) + 10 + level) * level / 100 + level + 10
  let hp := options.hp.getD baseHp
  let maxHp := options.maxHp.getD baseHp
  let struct := setByte struct PARTYMON_STRUCT.SPECIES species
  let struct := setByte struct PARTYMON_STRUCT.HP ((hp >>> 8) &&& 0xFF)
  let struct := setByte struct (PARTYMON_STRUCT.HP + 1) (hp &&& 0xFF)
  let struct := setByte struct PARTYMON_STRUCT.BOX_LEVEL level
  let struct := setByte struct PARTYMON_STRUCT.STATUS 0
  let struct := setByte struct PARTYMON_STRUCT.TYPE1 0x00
  let struct := setByte struct PARTYMON_STRUCT.TYPE2 0x00
  let struct := setByte struct PARTYMON_STRUCT.CATCH_RATE 45
  let struct := setByte struct (PARTYMON_STRUCT.MOVES + 0) (moves.getD 0 0)
  let struct := setByte struct (PARTYMON_STRUCT.MOVES + 1) (moves.getD 1 0)
  let struct := setByte struct (PARTYMON_STRUCT.MOVES + 2) (moves.getD 2 0)
  let struct := setByte struct (PARTYMON_STRUCT.MOVES + 3) (moves.getD 3 0)
  let struct := setByte struct PARTYMON_STRUCT.OT_ID 0x01
  let struct := setByte struct (PARTYMON_STRUCT.OT_ID + 1) 0x23
  let struct := setByte struct PARTYMON_STRUCT.EXP 0x00
  let struct := setByte struct (PARTYMON_STRUCT.EXP + 1) 0x01
  let struct := setByte struct (PARTYMON_STRUCT.EXP + 2) 0x00
  let struct := setByte struct PARTYMON_STRUCT.DVS 0xFF
  let struct := setByte struct (PARTYMON_STRUCT.DVS + 1) 0xFF
  let struct := setByte struct (PARTYMON_STRUCT.PP + 0) 35
  let struct := setByte struct (PARTYMON_STRUCT.PP + 1) 35
  let struct := setByte struct (PARTYMON_STRUCT.PP + 2) 35
  let struct := setByte struct (PARTYMON_STRUCT.PP + 3) 35
  let struct := setByte struct PARTYMON_STRUCT.LEVEL level
  let struct := setByte struct PARTYMON_STRUCT.MAX_HP ((maxHp >>> 8) &&& 0xFF)
  let struct := setByte struct (PARTYMON_STRUCT.MAX_HP + 1) (maxHp &&& 0xFF)
  let atk := level / 2 + 10
  let defense := 2 * level / 5 + 10
  let spd := level / 2 + 10
  let spc := level / 2 + 10
  let struct := setByte struct PARTYMON_STRUCT.ATK ((atk >>> 8) &&& 0xFF)
  let struct := setByte struct (PARTYMON_STRUCT.ATK + 1) (atk &&& 0xFF)
  let struct := setByte struct PARTYMON_STRUCT.DEF ((defense >>> 8) &&& 0xFF)
  let struct := setByte struct (PARTYMON_STRUCT.DEF + 1) (defense &&& 0xFF)
  let struct := setByte struct PARTYMON_STRUCT.SPD ((spd >>> 8) &&& 0xFF)
  let struct := setByte struct (PARTYMON_STRUCT.SPD + 1) (spd &&& 0xFF)
  let struct := setByte struct PARTYMON_STRUCT.SPC ((spc >>> 8) &&& 0xFF)
  let struct := setByte struct (PARTYMON_STRUCT.SPC + 1) (spc &&& 0xFF)
  struct

/-! ## EmulatorWrapper.ts: breakpoint registry and the `runFrame` loop

The binjgb port is a black box (`_emulator_run_until_f64`,
`_emulator_get_ticks_f64`, `_emulator_get_PC`): it is modelled by an
arbitrary state type `σ` together with the three operations the loop
uses.  Breakpoint callbacks are arbitrary host code; they are modelled
by identifiers resolved through an environment `env` acting on the
whole wrapper state (so a callback can write memory, move the PC, or
remove breakpoints, as `BattleController`'s does). -/

/-- The operations `runFrame` invokes on the binjgb module. -/
structure PortOps (σ : Type) where
  runUntil : σ → Nat → σ
  getTicks : σ → Nat
  getPC : σ → Nat

/-- The `EmulatorWrapper` state visible to `runFrame`: the port, the
host-side `currentTicks` mirror, and the `breakpoints` map
(address → callback id, in `Map` insertion order).  `fired` is a ghost
log of every callback invocation, used to observe the one-shot
contract. -/
structure EmuState (σ : Type) where
  port : σ
  currentTicks : Nat
  breakpoints : List (Nat × Nat)
  fired : List Nat

/-- `Map.get`: first binding for the address, if any. -/
def bpLookup (l : List (Nat × Nat)) (addr : Nat) : Option Nat :=
  match l with
  | [] => none
  | (a, cb) :: rest => if addr = a then some cb else bpLookup rest addr

/-- `Map.set`: replace the binding if the key exists, else append. -/
def bpSet (l : List (Nat × Nat)) (addr cb : Nat) : List (Nat × Nat) :=
  match l with
  | [] => [(addr, cb)]
  | (a, c) :: rest =>
      if addr = a then (a, cb) :: rest else (a, c) :: bpSet rest addr cb

/-- `Map.delete`: drop the binding for the key. -/
def bpDelete (l : List (Nat × Nat)) (addr : Nat) : List (Nat × Nat) :=
  match l with
  | [] => []
  | (a, c) :: rest => if addr = a then rest else (a, c) :: bpDelete rest addr

/-- `addBreakpoint(addr, callback)`: registers the callback and flags
the address in the port (the port-side flag is part of the abstract
port behaviour, which is universally quantified here). -/
def addBreakpoint (s : EmuState σ) (addr cb : Nat) : EmuState σ :=
  { s with breakpoints := bpSet s.breakpoints addr cb }

/-- `removeBreakpoint(addr)`: deletes the local entry; the
clear-all-and-rebuild of the port-side flags only affects the abstract
port behaviour. -/
def removeBreakpoint (s : EmuState σ) (addr : Nat) : EmuState σ :=
  { s with breakpoints := bpDelete s.breakpoints addr }

/-- `TICKS_PER_FRAME = 70224` (one rendered frame). -/
def TICKS_PER_FRAME : Nat := 70224

/-- The `while (this.currentTicks < targetTicks)` loop of `runFrame`,
with explicit fuel.  The returned flag is `true` when the loop exited
(frame complete or `break`) and `false` when the fuel ran out with the
loop still running. -/
def runFrameLoop (ops : PortOps σ) (env : Nat → EmuState σ → EmuState σ)
    (target : Nat) : Nat → EmuState σ → EmuState σ × Bool
  | 0, s => (s, false)
  | fuel + 1, s =>
    if s.currentTicks < target then
      let port1 := ops.runUntil s.port target
      let actual := ops.getTicks port1
      if actual < target then
        match bpLookup s.breakpoints (ops.getPC port1) with
        | some cb =>
          let s2 := env cb { s with port := port1, fired := s.fired ++ [cb] }
          if ops.getPC s2.port = ops.getPC port1 then
            ({ s2 with currentTicks := actual }, true)
          else
            runFrameLoop ops env target fuel { s2 with currentTicks := actual }
        | none =>
          if actual = s.currentTicks then ({ s with port := port1 }, true)
          else runFrameLoop ops env target fuel
            { s with port := port1, currentTicks := actual }
      else
        runFrameLoop ops env target fuel { s with port := port1, currentTicks := actual }
    else (s, true)

/-- `runFrame()`: run the loop toward `currentTicks + TICKS_PER_FRAME`.
The fuel is one more than the iteration bound the specification claims
for the loop. -/
def runFrame (ops : PortOps σ) (env : Nat → EmuState σ → EmuState σ)
    (s : EmuState σ) : EmuState σ × Bool :=
  runFrameLoop ops env (s.currentTicks + TICKS_PER_FRAME) (TICKS_PER_FRAME + 1) s

/-! ## PokemonGenerationService.ts: the pre-fetch queue

JS is single threaded, so the service's methods and the continuations
of its `await`s are atomic steps.  `generating` and `pendingPromise`
are set together in the synchronous prefix of `generateOne` and
cleared together in its `finally`, so at step granularity they are one
flag.  When `doGenerate` resolves, `generateOne`'s own continuation
(which pushes the result onto the queue tail) runs before the
continuations of the `getNext` callers awaiting `pendingPromise`, and
each of those receives the same resolved value, looks it up in the
queue (`indexOf`) and splices it out when found.

`delivered` is a ghost log of `(caller, item)` returns and `active` a
ghost count of generation tasks currently in flight. -/

structure SvcState (α : Type) where
  queue : List α
  generating : Bool
  waiters : List Nat
  delivered : List (Nat × α)
  active : Nat

/-- The service's initial state. -/
def svcInit : SvcState α := ⟨[], false, [], [], 0⟩

/-- The synchronous prefix of `generateOne` past its guard: sets
`generating` (and `pendingPromise`) and launches `doGenerate`. -/
def startGeneration (s : SvcState α) : SvcState α :=
  { s with generating := true, active := s.active + 1 }

/-- `prefetch()`: no-op if already generating or an item is queued,
otherwise fire-and-forget one `generateOne()`. -/
def svcPrefetch (s : SvcState α) : SvcState α :=
  if s.generating = true ∨ 0 < s.queue.length then s else startGeneration s

/-- `getNextIfReady()` called by caller `c`: pop the head if present. -/
def svcGetNextIfReady (c : Nat) (s : SvcState α) : Option α × SvcState α :=
  match s.queue with
  | x :: rest =>
      (some x, { s with queue := rest, delivered := s.delivered ++ [(c, x)] })
  | [] => (none, s)

/-- The synchronous prefix of `getNext()` for caller `c`: return the
head immediately if queued; else if a task is in flight, await its
promise; else start a generation and await it. -/
def svcGetNextArrive (c : Nat) (s : SvcState α) : SvcState α :=
  match s.queue with
  | x :: rest =>
      { s with queue := rest, delivered := s.delivered ++ [(c, x)] }
  | [] =>
      if s.generating = true then { s with waiters := s.waiters ++ [c] }
      else { startGeneration s with waiters := s.waiters ++ [c] }

/-- Each resumed `getNext` waiter does `queue.indexOf(pokemon)` and
splices the item out when found; only the first of them finds it. -/
def waitersConsume [DecidableEq α] (x : α) : List α → List Nat → List α
  | q, [] => q
  | q, _ :: rest => waitersConsume x (q.erase x) rest

/-- Successful completion of the in-flight `doGenerate` with result
`x`: `generateOne`'s continuation pushes `x` to the queue tail and
clears the in-flight flag, then every awaiting `getNext` continuation
receives `x` (removing it from the queue if still there) and returns
it to its caller. -/
def svcComplete [DecidableEq α] (x : α) (s : SvcState α) : SvcState α :=
  if s.generating = true then
    { queue := waitersConsume x (s.queue ++ [x]) s.waiters
      generating := false
      waiters := []
      delivered := s.delivered ++ s.waiters.map (fun c => (c, x))
      active := s.active - 1 }
  else s

/-- Failed completion of the in-flight `doGenerate`: nothing is
queued, the flag is cleared in the `finally`, and the awaiting
`getNext` callers see the rejection. -/
def svcFail (s : SvcState α) : SvcState α :=
  if s.generating = true then
    { s with generating := false, waiters := [], active := s.active - 1 }
  else s

/-- The events the service's state can change on.  Completions carry
no payload: the item produced by the k-th completed task is the
completion index k itself, so that item identity tracks completion
order. -/
inductive SvcOp where
  | prefetchOp
  | getNextOp (c : Nat)
  | getNextIfReadyOp (c : Nat)
  | completeOp
  | failOp
deriving DecidableEq

/-- One step of the service; the second component is the completion
counter handing out item identities. -/
def svcStep : SvcOp → SvcState Nat × Nat → SvcState Nat × Nat
  | .prefetchOp, (s, n) => (svcPrefetch s, n)
  | .getNextOp c, (s, n) => (svcGetNextArrive c s, n)
  | .getNextIfReadyOp c, (s, n) => ((svcGetNextIfReady c s).2, n)
  | .completeOp, (s, n) => (svcComplete n s, n + 1)
  | .failOp, (s, n) => (svcFail s, n)

/-- Run a sequence of service events. -/
def svcRun : List SvcOp → SvcState Nat × Nat → SvcState Nat × Nat
  | [], sn => sn
  | op :: rest, sn => svcRun rest (svcStep op sn)

/-- A trace has lone awaiters when no two `getNext` calls are awaiting
the same generation task at the moment it completes. -/
def svcLoneAwaiters : List SvcOp → SvcState Nat × Nat → Bool
  | [], _ => true
  | op :: rest, sn =>
      (decide (op = .completeOp → sn.1.waiters.length ≤ 1)) &&
        svcLoneAwaiters rest (svcStep op sn)

/-! ## BattleController.ts (with BattleTrigger.ts)

Guest memory is a total function `Nat → Nat`; `writeMemory` truncates
the stored byte.  The controller's `update`, `prepareNextPokemon` (its
synchronous part; the `await getNext()` continuation is
`prepareNextPokemonResume`), the injection breakpoint callback and its
helpers are embedded directly.  `events` is the ghost log of the
`onStateChange` / `onPokemonGenerated` / `onBattleEnd` notifications. -/

/-- `writeMemory(addr, value)` on the modelled guest memory. -/
def writeMem (mem : Nat → Nat) (addr v : Nat) : Nat → Nat :=
  fun a => if a = addr then v % 256 else mem a

/-- `writeMemoryBlock(startAddr, data)`: byte-by-byte writes. -/
def writeMemBlock (mem : Nat → Nat) (start : Nat) : List Nat → Nat → Nat
  | [] => mem
  | b :: rest => writeMemBlock (writeMem mem start b) (start + 1) rest

/-- `String.prototype.toUpperCase` restricted to the characters the
game encodes (ASCII). -/
def toUpper (l : List Char) : List Char := l.map Char.toUpper

/-- `getBattleResult`: read `wBattleResult`
(0 = win, 1 = lose, 2 = draw, 3 = ran). -/
def getBattleResult (mem : Nat → Nat) : Nat := mem WRAM.wBattleResult

/-- The base-stat record carried by a generated creature
(`GeneratedPokemon.baseStats`). -/
structure BaseStatsRec where
  hp : Nat
  attack : Nat
  defense : Nat
  speed : Nat
  special : Nat
deriving DecidableEq

/-- The fields of `GeneratedPokemon` that the battle controller reads
(`name`, `level`, `baseStats`, `moves`, `sprite2bpp`); the purely
visual fields (`spriteDataUrl`, `types`, the `stats` duplicate and the
pre-encoded name) are not consulted by the modelled paths. -/
structure GeneratedPokemon where
  name : List Char
  level : Nat
  baseStats : Option BaseStatsRec
  moves : List Nat
  sprite2bpp : List Nat
deriving DecidableEq

/-- `BattleState` of the controller. -/
inductive BattleState where
  | idle
  | generating
  | waiting_for_generation
  | in_battle
  | waiting_for_game
deriving DecidableEq

/-- The outcome tag passed to `onBattleEnd`. -/
inductive BattleResultTag where
  | win
  | lose
  | draw
  | ran
deriving DecidableEq

/-- `resultMap[result] ?? 'win'` from `BattleController.update`. -/
def resultMap (r : Nat) : BattleResultTag :=
  if r = 0 then .win
  else if r = 1 then .lose
  else if r = 2 then .draw
  else if r = 3 then .ran
  else .win

/-- The observable notifications the controller emits. -/
inductive BCEvent where
  | stateChanged (st : BattleState)
  | pokemonGenerated (p : GeneratedPokemon)
  | battleEnd (r : BattleResultTag)
deriving DecidableEq

/-- The combined state of the emulator memory, the breakpoint registry
keys, the `BattleController` fields and the generation service. -/
structure Sys where
  mem : Nat → Nat
  pc : Nat
  bpAddrs : List Nat
  state : BattleState
  currentPokemon : Option GeneratedPokemon
  lastBattleState : Nat
  battleCount : Nat
  framesSinceLastCheck : Nat
  gameReady : Bool
  injectionPending : Bool
  breakpointInstalled : Bool
  svc : SvcState GeneratedPokemon
  events : List BCEvent

/-- `LoadMonFrontSprite` in pokered. -/
def LOAD_MON_FRONT_SPRITE_ADDR : Nat := 0x1665

/-- The known-safe RET after `DisableLCD` in bank 0. -/
def KNOWN_RET_ADDR : Nat := 0x0073

/-- `setState(state)`: record and notify only on change. -/
def setState (s : Sys) (st : BattleState) : Sys :=
  if s.state = st then s
  else { s with state := st, events := s.events ++ [BCEvent.stateChanged st] }

/-- `BattleSetup` from `battle/BattleTrigger.ts`. -/
structure BattleSetup where
  playerSpecies : Nat
  playerLevel : Nat
  playerName : Option (List Char)
  enemySpecies : Nat
  enemyLevel : Nat
  enemyName : List Char

/-- `setupTestBattle(emulator, setup)` from `battle/BattleTrigger.ts`:
the sequence of guest-memory writes preparing the TestBattle state
(the enemy-level write is commented out in the source and is managed
by the breakpoint instead). -/
def setupTestBattle (mem : Nat → Nat) (setup : BattleSetup) : Nat → Nat :=
  let mem := writeMem mem WRAM.wObtainedBadges (1 <<< 7)
  let mem := writeMem mem WRAM.wPartyCount 0
  let mem := writeMem mem WRAM.wPartySpecies 0xFF
  let mem := writeMem mem WRAM.wPartyCount 1
  let mem := writeMem mem WRAM.wPartySpecies setup.playerSpecies
  let mem := writeMem mem (WRAM.wPartySpecies + 1) 0xFF
  let playerMon := buildPartyMon
    { species := setup.playerSpecies
      level := setup.playerLevel
      moves := some [0x21, 0x0A, 0x62, 0]
      hp := none
      maxHp := none }
  let mem := writeMemBlock mem WRAM.wPartyMon1 playerMon
  let playerName := setup.playerName.getD ['P', 'L', 'A', 'Y', 'E', 'R']
  let mem := writeMemBlock mem WRAM.wPartyMon1Nick (encodeString (toUpper playerName))
  let mem := writeMemBlock mem WRAM.wPartyMon1OT (encodeString ['A', 'S', 'H'])
  let mem := writeMem mem WRAM.wCurOpponent setup.enemySpecies
  let mem := writeMem mem WRAM.wEnemyMonSpecies2 setup.enemySpecies
  let mem := writeMemBlock mem WRAM.wEnemyMonNick (encodeString (toUpper setup.enemyName))
  mem

/-- `setupTestBattleMode()`: player Pikachu Lv.50 named PLAYER against
a Rhydon placeholder carrying the generated creature's level and name. -/
def setupTestBattleMode (s : Sys) : Sys :=
  match s.currentPokemon with
  | none => s
  | some p =>
      let setup : BattleSetup :=
        { playerSpecies := 0x54
          playerLevel := 50
          playerName := some ['P', 'L', 'A', 'Y', 'E', 'R']
          enemySpecies := 0x01
          enemyLevel := p.level
          enemyName := p.name }
      { s with mem := setupTestBattle s.mem setup }

/-- `installInjectionBreakpoint()`: register the one callback at
`LoadMonFrontSprite` unless already installed. -/
def installInjectionBreakpoint (s : Sys) : Sys :=
  if s.breakpointInstalled = true then s
  else
    { s with
      bpAddrs :=
        if LOAD_MON_FRONT_SPRITE_ADDR ∈ s.bpAddrs then s.bpAddrs
        else s.bpAddrs ++ [LOAD_MON_FRONT_SPRITE_ADDR]
      breakpointInstalled := true }

/-- The scan loop of `findRetAddress`: offsets 1 to 199 from the
routine entry, looking for the RET opcode 0xC9. -/
def findRetScan (mem : Nat → Nat) (offset : Nat) : Option Nat :=
  if offset < 200 then
    if mem (LOAD_MON_FRONT_SPRITE_ADDR + offset) = 0xC9 then
      some (LOAD_MON_FRONT_SPRITE_ADDR + offset)
    else findRetScan mem (offset + 1)
  else none
termination_by 200 - offset

/-- `findRetAddress()`: scan forward from `LoadMonFrontSprite`; fall
back to the known RET address when the window holds no RET. -/
def findRetAddress (mem : Nat → Nat) : Option Nat :=
  match findRetScan mem 1 with
  | some addr => some addr
  | none => some KNOWN_RET_ADDR

/-- `skipCurrentFunction()`: jump the PC to the located RET. -/
def skipCurrentFunction (s : Sys) : Sys :=
  match findRetAddress s.mem with
  | some retAddr => { s with pc := retAddr }
  | none => s

/-- `injectSpriteSync(pokemon)`: LCD-disable hack around the VRAM
copy to the front-pic tiles at 0x9000 (the verification read-back only
logs). -/
def injectSpriteSync (s : Sys) (p : GeneratedPokemon) : Sys :=
  if 0 < p.sprite2bpp.length then
    let originalLcdc := s.mem 0xFF40
    let isLcdOn := originalLcdc &&& 0x80 ≠ 0
    let s := if isLcdOn then { s with mem := writeMem s.mem 0xFF40 (originalLcdc &&& 0x7F) } else s
    let s := { s with mem := writeMemBlock s.mem 0x9000 p.sprite2bpp }
    let s := if isLcdOn then { s with mem := writeMem s.mem 0xFF40 originalLcdc } else s
    s
  else s

/-- The "write base stats if we have them" block of the breakpoint
callback. -/
def writeEnemyBaseStats (s : Sys) (p : GeneratedPokemon) : Sys :=
  match p.baseStats with
  | some st =>
      let mem := writeMem s.mem WRAM.wEnemyMonBaseStats st.hp
      let mem := writeMem mem (WRAM.wEnemyMonBaseStats + 1) st.attack
      let mem := writeMem mem (WRAM.wEnemyMonBaseStats + 2) st.defense
      let mem := writeMem mem (WRAM.wEnemyMonBaseStats + 3) st.speed
      let mem := writeMem mem (WRAM.wEnemyMonBaseStats + 4) st.special
      { s with mem := mem }
  | none => s

/-- The "write moves if we have them" block of the breakpoint
callback. -/
def writeEnemyMoves (s : Sys) (p : GeneratedPokemon) : Sys :=
  if 0 < p.moves.length then
    let mem := writeMem s.mem (WRAM.wEnemyMonMoves + 0) (p.moves.getD 0 0)
    let mem := writeMem mem (WRAM.wEnemyMonMoves + 1) (p.moves.getD 1 0)
    let mem := writeMem mem (WRAM.wEnemyMonMoves + 2) (p.moves.getD 2 0)
    let mem := writeMem mem (WRAM.wEnemyMonMoves + 3) (p.moves.getD 3 0)
    { s with mem := mem }
  else s

/-- The "INJECT POKEMON DATA" section of the breakpoint callback:
species placeholder (Mew, 0x15), nickname, level, base stats, moves. -/
def injectEnemyData (s : Sys) (p : GeneratedPokemon) : Sys :=
  let s := { s with mem := writeMem s.mem WRAM.wEnemyMonSpecies2 0x15 }
  let s := { s with mem := writeMem s.mem WRAM.wEnemyMonSpecies 0x15 }
  let s := { s with mem := writeMemBlock s.mem WRAM.wEnemyMonNick
                      (encodeString (toUpper p.name)) }
  let s := { s with mem := writeMem s.mem WRAM.wEnemyMonLevel p.level }
  let s := { s with mem := writeMem s.mem WRAM.wCurEnemyLevel p.level }
  let s := writeEnemyBaseStats s p
  writeEnemyMoves s p

/-- `onLoadMonFrontSpriteBreakpoint()`: the one-shot injection point.
Outside battle it returns untouched (title-screen false positive);
in battle without a pending injection it only skips the routine; with
a pending injection it writes the creature's data and sprite, skips
the routine, clears the pending flag and removes the breakpoint. -/
def onLoadMonFrontSpriteBreakpoint (s : Sys) : Sys :=
  if s.mem WRAM.wIsInBattle = 0 then s
  else if s.injectionPending = false ∨ s.currentPokemon = none then
    skipCurrentFunction s
  else
    match s.currentPokemon with
    | none => skipCurrentFunction s
    | some p =>
      let s := injectEnemyData s p
      let s := injectSpriteSync s p
      let s := skipCurrentFunction s
      let s := { s with injectionPending := false }
      { s with bpAddrs := s.bpAddrs.erase LOAD_MON_FRONT_SPRITE_ADDR
               breakpointInstalled := false }

/-- The synchronous part of `prepareNextPokemon()`: consume the
pre-fetched creature when ready (notify, rebuild the TestBattle state,
re-arm the injection breakpoint); otherwise surface the waiting state
and await `getNext()`. -/
def prepareNextPokemon (s : Sys) : Sys :=
  if 0 < s.svc.queue.length then
    match svcGetNextIfReady 0 s.svc with
    | (some p, svc') =>
        let s := { s with svc := svc', currentPokemon := some p,
                          events := s.events ++ [BCEvent.pokemonGenerated p] }
        let s := setupTestBattleMode s
        let s := setState s .idle
        installInjectionBreakpoint { s with injectionPending := true }
    | (none, svc') =>
        let s := setState { s with svc := svc' } .waiting_for_generation
        { s with svc := svcGetNextArrive 0 s.svc }
  else
    let s := setState s .waiting_for_generation
    { s with svc := svcGetNextArrive 0 s.svc }

/-- The continuation of `prepareNextPokemon` after `await getNext()`
resolves with `p` (same success block as the ready path). -/
def prepareNextPokemonResume (s : Sys) (p : GeneratedPokemon) : Sys :=
  let s := { s with currentPokemon := some p,
                    events := s.events ++ [BCEvent.pokemonGenerated p] }
  let s := setupTestBattleMode s
  let s := setState s .idle
  installInjectionBreakpoint { s with injectionPending := true }

/-- The "track game readiness" step of `update()`. -/
def trackGameReady (s : Sys) : Sys :=
  if s.gameReady = false then setState { s with gameReady := true } .idle else s

/-- The body of `update()` past the every-10-frames gate: readiness
tracking, then edge detection on the battle-active cell. -/
def updateBody (s : Sys) : Sys :=
  let s := trackGameReady s
  let currentBattleState := s.mem WRAM.wIsInBattle
  let s :=
    if currentBattleState ≠ 0 ∧ s.lastBattleState = 0 then
      let s := setState s .in_battle
      { s with svc := svcPrefetch s.svc }
    else s
  let s :=
    if currentBattleState = 0 ∧ s.lastBattleState ≠ 0 then
      let result := getBattleResult s.mem
      let s := { s with battleCount := s.battleCount + 1,
                        events := s.events ++ [BCEvent.battleEnd (resultMap result)] }
      prepareNextPokemon s
    else s
  { s with lastBattleState := currentBattleState }

/-- `update()`: the per-frame monitor.  Checks every 10th call, tracks
game readiness, edge-detects the battle-active cell, starts the
pre-fetch on battle start and, on battle end, maps the outcome code,
bumps the battle counter, notifies, and prepares the next creature. -/
def update (s : Sys) : Sys :=
  let s := { s with framesSinceLastCheck := s.framesSinceLastCheck + 1 }
  if s.framesSinceLastCheck < 10 then s
  else updateBody { s with framesSinceLastCheck := 0 }

/-- Iterate `update` (one call per frame). -/
def updateN : Nat → Sys → Sys
  | 0, s => s
  | n + 1, s => updateN n (update s)

/-! ## Helper lemmas -/

theorem encodeChars_length (chars : List Char) :
    ∀ (res : List Nat) (i : Nat), (encodeChars res chars i).length = res.length := by
  induction chars with
  | nil => intro res i; rfl
  | cons c rest ih =>
      intro res i
      simp [encodeChars, ih, setByte, List.length_set]

theorem encodeChars_getElem_lt (chars : List Char) :
    ∀ (res : List Nat) (i j : Nat), j < i →
      (encodeChars res chars i)[j]? = res[j]? := by
  induction chars with
  | nil => intro res i j _; rfl
  | cons c rest ih =>
      intro res i j hj
      simp only [encodeChars, setByte]
      rw [ih _ _ _ (Nat.lt_succ_of_lt hj)]
      exact List.getElem?_set_ne (Nat.ne_of_gt hj)

theorem encodeChars_getElem_at (chars : List Char) :
    ∀ (res : List Nat) (i k : Nat) (c : Char), chars[k]? = some c →
      i + chars.length ≤ res.length →
      (encodeChars res chars i)[i + k]? =
        some (((charmapGet c).getD 0x7F) % 256) := by
  induction chars with
  | nil => intro res i k c hk _; simp at hk
  | cons c0 rest ih =>
      intro res i k c hk hlen
      cases k with
      | zero =>
          rw [List.getElem?_cons_zero, Option.some_inj] at hk
          subst hk
          have hi : i < res.length := by
            simp only [List.length_cons] at hlen; omega
          simp only [encodeChars, setByte, Nat.add_zero]
          rw [encodeChars_getElem_lt rest _ _ _ (Nat.lt_succ_self i)]
          exact List.getElem?_set_eq_of_lt _ hi
      | succ k' =>
          rw [List.getElem?_cons_succ] at hk
          have hlen' : (i + 1) + rest.length ≤
              (res.set i (((charmapGet c0).getD 0x7F) % 256)).length := by
            rw [List.length_set]
            simp only [List.length_cons] at hlen
            omega
          simp only [encodeChars, setByte]
          rw [show i + (k' + 1) = (i + 1) + k' by omega]
          exact ih _ (i + 1) k' c hk hlen'

theorem charmapGet_getD_lt (c : Char) : ((charmapGet c).getD 0x7F) < 256 := by
  unfold charmapGet
  cases h : CHARMAP.find? (fun p => p.1 == c) with
  | none => simp
  | some p =>
      have hp : p ∈ CHARMAP := List.mem_of_find?_eq_some h
      have : ∀ q ∈ CHARMAP, q.2 < 256 := by decide
      simpa using this p hp

/-! ## C10: `encodeString` -/

/-- C10: for every input string `s`, `encodeString s` (default
`maxLen = 11`) is a buffer of exactly 11 bytes; at most the first 10
characters are encoded through the character map, an unmapped
character becoming `0x7F`; and the byte at index `min s.length 10` is
the terminator `0x50` — longer names are silently truncated and the
output always holds a terminator. -/
theorem encodeString_spec (s : List Char) :
    (encodeString s).length = 11 ∧
    (encodeString s)[min s.length 10]? = some 0x50 ∧
    ∀ i c, i < min s.length 10 → s[i]? = some c →
      (encodeString s)[i]? = some ((charmapGet c).getD 0x7F) := by
  have hlen10 : (s.take 10).length = min 10 s.length := List.length_take 10 s
  have hE : (encodeChars (List.replicate 11 0) (s.take 10) 0).length = 11 := by
    rw [encodeChars_length]; simp
  refine ⟨?_, ?_, ?_⟩
  · show ((encodeChars (List.replicate 11 0) (s.take 10) 0).set
        (s.take 10).length (0x50 % 256)).length = 11
    rw [List.length_set]; exact hE
  · show ((encodeChars (List.replicate 11 0) (s.take 10) 0).set
        (s.take 10).length (0x50 % 256))[min s.length 10]? = some 0x50
    have hidx : (s.take 10).length = min s.length 10 := by rw [hlen10]; omega
    rw [hidx]
    have hbound : min s.length 10 < (encodeChars (List.replicate 11 0) (s.take 10) 0).length := by
      rw [hE]; omega
    have := List.getElem?_set_eq_of_lt (α := Nat) (0x50 % 256) hbound
    simpa using this
  · intro i c hi hic
    show ((encodeChars (List.replicate 11 0) (s.take 10) 0).set
        (s.take 10).length (0x50 % 256))[i]? = some ((charmapGet c).getD 0x7F)
    have hiL : i < (s.take 10).length := by rw [hlen10]; omega
    rw [List.getElem?_set_ne (by omega : (s.take 10).length ≠ i)]
    have htake : (s.take 10)[i]? = some c := by
      rw [List.getElem?_take, if_pos (by omega : i < 10)]
      exact hic
    have hmain := encodeChars_getElem_at (s.take 10) (List.replicate 11 0) 0 i c htake
      (by rw [List.length_replicate]; omega)
    rw [Nat.zero_add] at hmain
    rw [hmain, Nat.mod_eq_of_lt (charmapGet_getD_lt c)]

/-- C10 witness: a 13-character name with an unmapped character; index
3 is within the encoded prefix. -/
theorem encodeString_spec_witness :
    3 < min ("FLAMORB!EXTRA".toList.length) 10 ∧
    (encodeString "FLAMORB!EXTRA".toList)[3]? = some 0x8C ∧
    (encodeString "FLAMORB!EXTRA".toList).length = 11 ∧
    (encodeString "FLAMORB!EXTRA".toList)[min ("FLAMORB!EXTRA".toList.length) 10]? = some 0x50 := by
  refine ⟨by decide, ?_, (encodeString_spec "FLAMORB!EXTRA".toList).1,
    (encodeString_spec "FLAMORB!EXTRA".toList).2.1⟩
  have := (encodeString_spec "FLAMORB!EXTRA".toList).2.2 3 'M' (by decide) (by decide)
  rw [this]; decide

/-! ## C4: title-screen false positive leaves everything untouched -/

/-- The baseline system state used by concrete runs. -/
def sysInit (mem : Nat → Nat) : Sys :=
  { mem := mem
    pc := 0
    bpAddrs := []
    state := .waiting_for_game
    currentPokemon := none
    lastBattleState := 0
    battleCount := 0
    framesSinceLastCheck := 0
    gameReady := false
    injectionPending := false
    breakpointInstalled := false
    svc := svcInit
    events := [] }

/-- C4: when the injection breakpoint callback fires while the
battle-active cell reads 0, the callback returns with the state
completely unchanged: no guest-memory write, no instruction-pointer
redirect, the injection-pending flag and the breakpoint registration
exactly as before. -/
theorem falsePositive_no_effect (s : Sys) (h : s.mem WRAM.wIsInBattle = 0) :
    onLoadMonFrontSpriteBreakpoint s = s := by
  unfold onLoadMonFrontSpriteBreakpoint
  rw [if_pos h]

/-- C4 witness: the baseline state with all-zero memory. -/
theorem falsePositive_no_effect_witness :
    (sysInit (fun _ => 0)).mem WRAM.wIsInBattle = 0 ∧
    onLoadMonFrontSpriteBreakpoint (sysInit (fun _ => 0)) = sysInit (fun _ => 0) :=
  ⟨rfl, falsePositive_no_effect (sysInit (fun _ => 0)) rfl⟩

/-! ## C9: RET-scan fallback -/

theorem writeMem_ne (mem : Nat → Nat) (addr v a : Nat) (h : a ≠ addr) :
    writeMem mem addr v a = mem a := by
  simp [writeMem, h]

theorem writeMemBlock_low (data : List Nat) :
    ∀ (mem : Nat → Nat) (start a : Nat), a < start →
      writeMemBlock mem start data a = mem a := by
  induction data with
  | nil => intro mem start a _; rfl
  | cons b rest ih =>
      intro mem start a ha
      simp only [writeMemBlock]
      rw [ih _ _ _ (by omega)]
      exact writeMem_ne _ _ _ _ (by omega)

theorem injectSpriteSync_mem_low (s : Sys) (p : GeneratedPokemon) (a : Nat)
    (ha : a < 0x9000) : (injectSpriteSync s p).mem a = s.mem a := by
  simp only [injectSpriteSync]
  split_ifs
  · show writeMem (writeMemBlock (writeMem s.mem 0xFF40 (s.mem 0xFF40 &&& 0x7F))
        0x9000 p.sprite2bpp) 0xFF40 (s.mem 0xFF40) a = s.mem a
    rw [writeMem_ne _ _ _ _ (by omega), writeMemBlock_low _ _ _ _ (by omega),
      writeMem_ne _ _ _ _ (by omega)]
  · show writeMemBlock s.mem 0x9000 p.sprite2bpp a = s.mem a
    rw [writeMemBlock_low _ _ _ _ (by omega)]
  · rfl

theorem injectSpriteSync_pc (s : Sys) (p : GeneratedPokemon) :
    (injectSpriteSync s p).pc = s.pc := by
  simp only [injectSpriteSync]
  split_ifs <;> rfl

theorem injectSpriteSync_pending (s : Sys) (p : GeneratedPokemon) :
    (injectSpriteSync s p).injectionPending = s.injectionPending := by
  simp only [injectSpriteSync]
  split_ifs <;> rfl

theorem writeEnemyBaseStats_mem_low (s : Sys) (p : GeneratedPokemon) (a : Nat)
    (ha : a < 0x9000) : (writeEnemyBaseStats s p).mem a = s.mem a := by
  unfold writeEnemyBaseStats
  split
  · simp only [writeMem, WRAM.wEnemyMonBaseStats]
    split_ifs <;> first | rfl | (exfalso; omega)
  · rfl

theorem writeEnemyBaseStats_pc (s : Sys) (p : GeneratedPokemon) :
    (writeEnemyBaseStats s p).pc = s.pc := by
  unfold writeEnemyBaseStats
  split <;> rfl

theorem writeEnemyMoves_mem_low (s : Sys) (p : GeneratedPokemon) (a : Nat)
    (ha : a < 0x9000) : (writeEnemyMoves s p).mem a = s.mem a := by
  unfold writeEnemyMoves
  split
  · simp only [writeMem, WRAM.wEnemyMonMoves]
    split_ifs <;> first | rfl | (exfalso; omega)
  · rfl

theorem writeEnemyMoves_pc (s : Sys) (p : GeneratedPokemon) :
    (writeEnemyMoves s p).pc = s.pc := by
  unfold writeEnemyMoves
  split <;> rfl

theorem injectEnemyData_mem_low (s : Sys) (p : GeneratedPokemon) (a : Nat)
    (ha : a < 0x9000) : (injectEnemyData s p).mem a = s.mem a := by
  unfold injectEnemyData
  rw [writeEnemyMoves_mem_low _ _ _ ha, writeEnemyBaseStats_mem_low _ _ _ ha]
  show writeMem (writeMem (writeMemBlock (writeMem (writeMem s.mem
      WRAM.wEnemyMonSpecies2 0x15) WRAM.wEnemyMonSpecies 0x15)
      WRAM.wEnemyMonNick (encodeString (toUpper p.name)))
      WRAM.wEnemyMonLevel p.level) WRAM.wCurEnemyLevel p.level a = s.mem a
  rw [writeMem_ne _ _ _ _ (by simp only [WRAM.wCurEnemyLevel]; omega),
    writeMem_ne _ _ _ _ (by simp only [WRAM.wEnemyMonLevel]; omega),
    writeMemBlock_low _ _ _ _ (by simp only [WRAM.wEnemyMonNick]; omega),
    writeMem_ne _ _ _ _ (by simp only [WRAM.wEnemyMonSpecies]; omega),
    writeMem_ne _ _ _ _ (by simp only [WRAM.wEnemyMonSpecies2]; omega)]

theorem injectEnemyData_pc (s : Sys) (p : GeneratedPokemon) :
    (injectEnemyData s p).pc = s.pc := by
  unfold injectEnemyData
  rw [writeEnemyMoves_pc, writeEnemyBaseStats_pc]

theorem injectEnemyData_pending (s : Sys) (p : GeneratedPokemon) :
    (injectEnemyData s p).injectionPending = s.injectionPending := by
  unfold injectEnemyData writeEnemyMoves writeEnemyBaseStats
  split <;> split <;> rfl

theorem findRetScan_none_of_no_ret (mem : Nat → Nat) :
    ∀ (n off : Nat), 200 - off ≤ n →
      (∀ o, off ≤ o → o < 200 → mem (LOAD_MON_FRONT_SPRITE_ADDR + o) ≠ 0xC9) →
      findRetScan mem off = none := by
  intro n
  induction n with
  | zero =>
      intro off h _
      rw [findRetScan, if_neg (by omega)]
  | succ n ih =>
      intro off h hno
      rw [findRetScan]
      by_cases hlt : off < 200
      · rw [if_pos hlt, if_neg (hno off le_rfl hlt)]
        exact ih (off + 1) (by omega) (fun o ho h2 => hno o (by omega) h2)
      · rw [if_neg hlt]

theorem findRetAddress_fallback (mem : Nat → Nat)
    (hno : ∀ o, 1 ≤ o → o < 200 → mem (LOAD_MON_FRONT_SPRITE_ADDR + o) ≠ 0xC9) :
    findRetAddress mem = some KNOWN_RET_ADDR := by
  unfold findRetAddress
  rw [findRetScan_none_of_no_ret mem 200 1 (by omega) (fun o ho h2 => hno o ho h2)]

theorem skipCurrentFunction_mem (s : Sys) :
    (skipCurrentFunction s).mem = s.mem := by
  unfold skipCurrentFunction
  split <;> rfl

theorem skipCurrentFunction_pending (s : Sys) :
    (skipCurrentFunction s).injectionPending = s.injectionPending := by
  unfold skipCurrentFunction
  split <;> rfl

theorem skipCurrentFunction_pc_fallback (s : Sys)
    (h : findRetAddress s.mem = some KNOWN_RET_ADDR) :
    (skipCurrentFunction s).pc = KNOWN_RET_ADDR := by
  unfold skipCurrentFunction
  rw [h]

/-- C9: when no 0xC9 (RET) byte lies in the 200-byte scan window
following the routine entry 0x1665, `findRetAddress` answers the
documented fallback 0x0073, `skipCurrentFunction` sets the PC there,
and a pending in-battle injection still runs to completion through the
breakpoint callback (PC redirected to 0x0073, pending flag cleared) —
the embedding is total, so no exception is possible. -/
theorem retScan_fallback (s : Sys) (p : GeneratedPokemon)
    (hno : ∀ o, 1 ≤ o → o < 200 → s.mem (LOAD_MON_FRONT_SPRITE_ADDR + o) ≠ 0xC9)
    (hbattle : s.mem WRAM.wIsInBattle ≠ 0)
    (hpend : s.injectionPending = true)
    (hcp : s.currentPokemon = some p) :
    findRetAddress s.mem = some 0x0073 ∧
    (skipCurrentFunction s).pc = 0x0073 ∧
    (onLoadMonFrontSpriteBreakpoint s).pc = 0x0073 ∧
    (onLoadMonFrontSpriteBreakpoint s).injectionPending = false := by
  have hfall : findRetAddress s.mem = some KNOWN_RET_ADDR := findRetAddress_fallback s.mem hno
  have hbranch : onLoadMonFrontSpriteBreakpoint s =
      { skipCurrentFunction (injectSpriteSync (injectEnemyData s p) p) with
          injectionPending := false
          bpAddrs := (skipCurrentFunction (injectSpriteSync (injectEnemyData s p) p)).bpAddrs.erase
            LOAD_MON_FRONT_SPRITE_ADDR
          breakpointInstalled := false } := by
    unfold onLoadMonFrontSpriteBreakpoint
    rw [if_neg hbattle, if_neg (by simp [hpend, hcp]), hcp]
  have hmemlow : ∀ o, 1 ≤ o → o < 200 →
      (injectSpriteSync (injectEnemyData s p) p).mem (LOAD_MON_FRONT_SPRITE_ADDR + o) ≠ 0xC9 := by
    intro o h1 h2
    rw [injectSpriteSync_mem_low _ _ _ (by simp [LOAD_MON_FRONT_SPRITE_ADDR]; omega),
      injectEnemyData_mem_low _ _ _ (by simp [LOAD_MON_FRONT_SPRITE_ADDR]; omega)]
    exact hno o h1 h2
  have hpc : (skipCurrentFunction (injectSpriteSync (injectEnemyData s p) p)).pc =
      KNOWN_RET_ADDR :=
    skipCurrentFunction_pc_fallback _ (findRetAddress_fallback _ hmemlow)
  refine ⟨hfall, skipCurrentFunction_pc_fallback s hfall, ?_, ?_⟩
  · rw [hbranch]
    exact hpc
  · rw [hbranch]

/-- C9 witness: an all-zero memory (no 0xC9 anywhere) with a pending
in-battle injection.  `wIsInBattle` reads 1. -/
def retScanWitnessSys : Sys :=
  { sysInit (fun a => if a = WRAM.wIsInBattle then 1 else 0) with
      injectionPending := true
      currentPokemon := some ⟨['A'], 5, none, [0x21], [1, 2]⟩ }

theorem retScan_fallback_witness :
    findRetAddress retScanWitnessSys.mem = some 0x0073 ∧
    (onLoadMonFrontSpriteBreakpoint retScanWitnessSys).pc = 0x0073 := by
  have h := retScan_fallback retScanWitnessSys ⟨['A'], 5, none, [0x21], [1, 2]⟩
    (by intro o h1 h2; simp only [retScanWitnessSys, sysInit]; split <;> simp_all)
    (by simp [retScanWitnessSys, sysInit])
    (by rfl) (by rfl)
  exact ⟨h.1, h.2.2.1⟩

/-! ## C3: buildPartyMon fixed-offset round trip -/

theorem land_255_eq_mod (n : Nat) : n &&& 0xFF = n % 256 := by
  simpa using Nat.and_pow_two_sub_one_eq_mod n 8

theorem shiftRight_8_eq_div (n : Nat) : n >>> 8 = n / 256 := by
  rw [Nat.shiftRight_eq_div_pow]

/-- C3: encoding into the 44-byte `PARTYMON_STRUCT` layout and reading
the fixed offsets back yields the level, the stats and the move ids
unchanged; the layout is exactly 44 bytes, and HP, max HP, the OT id
and the attack/defense/speed/special stat block are big-endian at
their fixed offsets (the stat block holds exactly the level-derived
stats the encoder computes). -/
theorem buildPartyMon_roundTrip (sp lv m0 m1 m2 m3 hpv mhv : Nat)
    (hsp : sp < 256) (hlv : lv < 256)
    (hm0 : m0 < 256) (hm1 : m1 < 256) (hm2 : m2 < 256) (hm3 : m3 < 256)
    (hh : hpv < 65536) (hmh : mhv < 65536) :
    (buildPartyMon ⟨sp, lv, some [m0, m1, m2, m3], some hpv, some mhv⟩).length = 44 ∧
    (buildPartyMon ⟨sp, lv, some [m0, m1, m2, m3], some hpv, some mhv⟩)[PARTYMON_STRUCT.SPECIES]? = some sp ∧
    (buildPartyMon ⟨sp, lv, some [m0, m1, m2, m3], some hpv, some mhv⟩)[1]?.getD 0 * 256 + (buildPartyMon ⟨sp, lv, some [m0, m1, m2, m3], some hpv, some mhv⟩)[2]?.getD 0 = hpv ∧
    (buildPartyMon ⟨sp, lv, some [m0, m1, m2, m3], some hpv, some mhv⟩)[PARTYMON_STRUCT.BOX_LEVEL]? = some lv ∧
    (buildPartyMon ⟨sp, lv, some [m0, m1, m2, m3], some hpv, some mhv⟩)[PARTYMON_STRUCT.LEVEL]? = some lv ∧
    (buildPartyMon ⟨sp, lv, some [m0, m1, m2, m3], some hpv, some mhv⟩)[8]? = some m0 ∧
    (buildPartyMon ⟨sp, lv, some [m0, m1, m2, m3], some hpv, some mhv⟩)[9]? = some m1 ∧
    (buildPartyMon ⟨sp, lv, some [m0, m1, m2, m3], some hpv, some mhv⟩)[10]? = some m2 ∧
    (buildPartyMon ⟨sp, lv, some [m0, m1, m2, m3], some hpv, some mhv⟩)[11]? = some m3 ∧
    (buildPartyMon ⟨sp, lv, some [m0, m1, m2, m3], some hpv, some mhv⟩)[12]?.getD 0 * 256 + (buildPartyMon ⟨sp, lv, some [m0, m1, m2, m3], some hpv, some mhv⟩)[13]?.getD 0 = 0x0123 ∧
    (buildPartyMon ⟨sp, lv, some [m0, m1, m2, m3], some hpv, some mhv⟩)[34]?.getD 0 * 256 + (buildPartyMon ⟨sp, lv, some [m0, m1, m2, m3], some hpv, some mhv⟩)[35]?.getD 0 = mhv ∧
    (buildPartyMon ⟨sp, lv, some [m0, m1, m2, m3], some hpv, some mhv⟩)[36]?.getD 0 * 256 + (buildPartyMon ⟨sp, lv, some [m0, m1, m2, m3], some hpv, some mhv⟩)[37]?.getD 0 = lv / 2 + 10 ∧
    (buildPartyMon ⟨sp, lv, some [m0, m1, m2, m3], some hpv, some mhv⟩)[38]?.getD 0 * 256 + (buildPartyMon ⟨sp, lv, some [m0, m1, m2, m3], some hpv, some mhv⟩)[39]?.getD 0 = 2 * lv / 5 + 10 ∧
    (buildPartyMon ⟨sp, lv, some [m0, m1, m2, m3], some hpv, some mhv⟩)[40]?.getD 0 * 256 + (buildPartyMon ⟨sp, lv, some [m0, m1, m2, m3], some hpv, some mhv⟩)[41]?.getD 0 = lv / 2 + 10 ∧
    (buildPartyMon ⟨sp, lv, some [m0, m1, m2, m3], some hpv, some mhv⟩)[42]?.getD 0 * 256 + (buildPartyMon ⟨sp, lv, some [m0, m1, m2, m3], some hpv, some mhv⟩)[43]?.getD 0 = lv / 2 + 10 := by
  refine ⟨?_, ?_, ?_, ?_, ?_, ?_, ?_, ?_, ?_, ?_, ?_, ?_, ?_, ?_, ?_⟩ <;>
    · simp only [buildPartyMon, setByte, PARTYMON_STRUCT.SPECIES, PARTYMON_STRUCT.HP,
        PARTYMON_STRUCT.BOX_LEVEL, PARTYMON_STRUCT.STATUS, PARTYMON_STRUCT.TYPE1,
        PARTYMON_STRUCT.TYPE2, PARTYMON_STRUCT.CATCH_RATE, PARTYMON_STRUCT.MOVES,
        PARTYMON_STRUCT.OT_ID, PARTYMON_STRUCT.EXP, PARTYMON_STRUCT.DVS, PARTYMON_STRUCT.PP,
        PARTYMON_STRUCT.LEVEL, PARTYMON_STRUCT.MAX_HP, PARTYMON_STRUCT.ATK, PARTYMON_STRUCT.DEF,
        PARTYMON_STRUCT.SPD, PARTYMON_STRUCT.SPC, PARTYMON_STRUCT.LENGTH,
        List.getElem?_set, List.length_set, List.length_replicate,
        Option.getD_some, Option.some.injEq, List.getD,
        List.getElem?_cons_zero, List.getElem?_cons_succ,
        List.get?_cons_zero, List.get?_cons_succ,
        shiftRight_8_eq_div, land_255_eq_mod]
      try norm_num
      try omega

/-- C3 witness: a Pikachu-species record at level 50 with explicit
moves, HP 300 and max HP 420. -/
theorem buildPartyMon_roundTrip_witness :
    ((buildPartyMon ⟨25, 50, some [0x21, 0x0A, 0x62, 0], some 300, some 420⟩).length = 44) ∧
    25 < 256 ∧ 300 < 65536 :=
  ⟨(buildPartyMon_roundTrip 25 50 0x21 0x0A 0x62 0 300 420
      (by decide) (by decide) (by decide) (by decide) (by decide) (by decide)
      (by decide) (by decide)).1,
    by decide, by decide⟩

/-! ## C6 and C7: the runFrame loop -/

/-- Identity callback environment (callbacks that do nothing). -/
def env0 {σ : Type} : Nat → EmuState σ → EmuState σ := fun _ s => s

theorem runFrameLoop_ticks_le (ops : PortOps σ) (env : Nat → EmuState σ → EmuState σ)
    (target : Nat) (H : ∀ p t, ops.getTicks (ops.runUntil p t) ≤ t) :
    ∀ (fuel : Nat) (s : EmuState σ), s.currentTicks ≤ target →
      ((runFrameLoop ops env target fuel s).1).currentTicks ≤ target := by
  intro fuel
  induction fuel with
  | zero => intro s hs; exact hs
  | succ fuel ih =>
      intro s hs
      rw [runFrameLoop]
      by_cases h1 : s.currentTicks < target
      · rw [if_pos h1]
        simp only
        by_cases h2 : ops.getTicks (ops.runUntil s.port target) < target
        · rw [if_pos h2]
          cases hbp : bpLookup s.breakpoints (ops.getPC (ops.runUntil s.port target)) with
          | some cb =>
              simp only [hbp]
              split
              · exact Nat.le_of_lt h2
              · exact ih _ (Nat.le_of_lt h2)
          | none =>
              simp only [hbp]
              split
              · exact hs
              · exact ih _ (Nat.le_of_lt h2)
        · rw [if_neg h2]
          exact ih _ (H s.port target)
      · rw [if_neg h1]
        exact hs

/-- C6 amended: provided the port never reports a tick count past the
requested target (`runUntil`'s result tick is at most the target),
`runFrame` never leaves `currentTicks` above
`currentTicks_before + TICKS_PER_FRAME`; without that proviso the
bound can be exceeded (see the overshoot counterexample). -/
theorem advanceOneFrame_tick_bound (ops : PortOps σ)
    (env : Nat → EmuState σ → EmuState σ) (s : EmuState σ)
    (H : ∀ p t, ops.getTicks (ops.runUntil p t) ≤ t) :
    ((runFrame ops env s).1).currentTicks ≤ s.currentTicks + TICKS_PER_FRAME :=
  runFrameLoop_ticks_le ops env _ H _ s (Nat.le_add_right _ _)

/-- A port whose bounded-run primitive lands exactly on the target. -/
def portExact : PortOps Nat :=
  { runUntil := fun _ t => t, getTicks := fun p => p, getPC := fun _ => 0 }

/-- C6 witness: the exact port from a fresh state. -/
theorem advanceOneFrame_tick_bound_witness :
    ((runFrame portExact env0 ⟨0, 0, [], []⟩).1).currentTicks ≤ 0 + TICKS_PER_FRAME :=
  advanceOneFrame_tick_bound portExact env0 ⟨0, 0, [], []⟩ (fun _ t => Nat.le_refl t)

/-- A port whose bounded-run primitive overshoots the requested target
by 5 ticks, as a real emulator finishing its current instruction can. -/
def portOvershoot : PortOps Nat :=
  { runUntil := fun _ t => t + 5, getTicks := fun p => p, getPC := fun _ => 0 }

/-- C6 counterexample: with an overshooting port, one `runFrame` from
tick 0 leaves `currentTicks = 70229 > 0 + TICKS_PER_FRAME`, so the
claimed bound does not hold for every port behaviour. -/
theorem advanceOneFrame_tick_bound_cex :
    ((runFrame portOvershoot env0 ⟨0, 0, [], []⟩).1).currentTicks = 70229 ∧
    ¬ ((runFrame portOvershoot env0 ⟨0, 0, [], []⟩).1).currentTicks ≤ 0 + TICKS_PER_FRAME := by
  constructor
  · rfl
  · decide

theorem runFrameLoop_terminates (ops : PortOps σ) (env : Nat → EmuState σ → EmuState σ)
    (target : Nat)
    (Hrun : ∀ p t, ops.getTicks p < ops.getTicks (ops.runUntil p t))
    (Henv : ∀ cb s, ops.getTicks (env cb s).port = ops.getTicks s.port) :
    ∀ (fuel : Nat) (s : EmuState σ), s.currentTicks = ops.getTicks s.port →
      0 < fuel → target ≤ s.currentTicks + (fuel - 1) →
      (runFrameLoop ops env target fuel s).2 = true := by
  intro fuel
  induction fuel with
  | zero => intro s _ h0 _; exact absurd h0 (Nat.lt_irrefl 0)
  | succ fuel ih =>
      intro s hinv _ hbound
      rw [runFrameLoop]
      by_cases h1 : s.currentTicks < target
      · rw [if_pos h1]
        simp only
        have hact : s.currentTicks < ops.getTicks (ops.runUntil s.port target) := by
          rw [hinv]; exact Hrun s.port target
        by_cases h2 : ops.getTicks (ops.runUntil s.port target) < target
        · rw [if_pos h2]
          cases hbp : bpLookup s.breakpoints (ops.getPC (ops.runUntil s.port target)) with
          | some cb =>
              simp only [hbp]
              split
              · rfl
              · apply ih
                · dsimp only
                  exact (Henv cb
                    ⟨ops.runUntil s.port target, s.currentTicks, s.breakpoints,
                      s.fired ++ [cb]⟩).symm
                · omega
                · show target ≤ ops.getTicks (ops.runUntil s.port target) + (fuel - 1)
                  omega
          | none =>
              simp only [hbp]
              split
              · rfl
              · apply ih
                · rfl
                · omega
                · show target ≤ ops.getTicks (ops.runUntil s.port target) + (fuel - 1)
                  omega
        · rw [if_neg h2]
          apply ih
          · rfl
          · omega
          · show target ≤ ops.getTicks (ops.runUntil s.port target) + (fuel - 1)
            omega
      · rw [if_neg h1]

/-- C7 amended: the embedded `runFrame` is a total function (it cannot
raise), and whenever the port makes strict tick progress on every
bounded-run call and callbacks do not alter the port's tick counter,
the loop exits within `TICKS_PER_FRAME` iterations (the `runFrame`
fuel is one more than that bound, and the exit flag is `true`).
Without strict progress the loop can run forever (see the stall
counterexample). -/
theorem advanceOneFrame_terminates (ops : PortOps σ)
    (env : Nat → EmuState σ → EmuState σ) (s : EmuState σ)
    (Hrun : ∀ p t, ops.getTicks p < ops.getTicks (ops.runUntil p t))
    (Henv : ∀ cb st, ops.getTicks (env cb st).port = ops.getTicks st.port)
    (hinv : s.currentTicks = ops.getTicks s.port) :
    (runFrame ops env s).2 = true :=
  runFrameLoop_terminates ops env _ Hrun Henv _ s hinv (by omega) (by omega)

/-- A port making one giant strict step past the target. -/
def portJump : PortOps Nat :=
  { runUntil := fun p _ => p + 70225, getTicks := fun p => p, getPC := fun _ => 0 }

/-- C7 witness: a strictly progressing port terminates the frame. -/
theorem advanceOneFrame_terminates_witness :
    (runFrame portJump env0 ⟨0, 0, [], []⟩).2 = true :=
  advanceOneFrame_terminates portJump env0 ⟨0, 0, [], []⟩
    (fun p _ => by show p < p + 70225; omega) (fun _ _ => rfl) rfl

/-- A port that halts immediately with zero tick progress, its PC
sitting on whichever of the two breakpoints matches the toggle. -/
def portStall : PortOps Bool :=
  { runUntil := fun p _ => p, getTicks := fun _ => 0, getPC := fun p => cond p 1 0 }

/-- Callbacks that redirect the PC to the other breakpoint address. -/
def envToggle : Nat → EmuState Bool → EmuState Bool :=
  fun _ s => { s with port := !s.port }

theorem runFrameLoop_stall (fuel : Nat) :
    ∀ (b : Bool) (f : List Nat),
      (runFrameLoop portStall envToggle TICKS_PER_FRAME fuel ⟨b, 0, [(0, 0), (1, 1)], f⟩).2 =
        false := by
  induction fuel with
  | zero => intro b f; rfl
  | succ fuel ih =>
      intro b f
      rw [runFrameLoop]
      rw [if_pos (by norm_num [TICKS_PER_FRAME] :
        (0 : Nat) < TICKS_PER_FRAME)]
      cases b
      · simp only [portStall, bpLookup, envToggle, cond]
        norm_num
        exact ih true (f ++ [0])
      · simp only [portStall, bpLookup, envToggle, cond]
        norm_num
        exact ih false (f ++ [1])

/-- C7 counterexample: a port that halts with zero tick progress at a
breakpoint whose callback moves the PC to another breakpoint (which
moves it back) keeps the loop running past `TICKS_PER_FRAME`
iterations: `runFrame`, whose fuel already exceeds the claimed
iteration bound, exhausts it with the loop still running. -/
theorem advanceOneFrame_terminates_cex :
    (runFrame portStall envToggle ⟨false, 0, [(0, 0), (1, 1)], []⟩).2 = false :=
  runFrameLoop_stall (TICKS_PER_FRAME + 1) false []

/-! ## C1: the one-shot breakpoint contract -/

/-- A port that halts one tick into every bounded run with the PC
parked at address `a`. -/
def portHalt (a : Nat) : PortOps Nat :=
  { runUntil := fun p _ => p + 1, getTicks := fun p => p, getPC := fun _ => a }

theorem runFrame_portHalt_fires (a cb : Nat) :
    ∀ (t : Nat) (bps : List (Nat × Nat)) (f : List Nat),
      bpLookup bps a = some cb →
      runFrame (portHalt a) env0 ⟨t, t, bps, f⟩ =
        (⟨t + 1, t + 1, bps, f ++ [cb]⟩, true) := by
  intro t bps f hbp
  show runFrameLoop (portHalt a) env0 (t + TICKS_PER_FRAME) (TICKS_PER_FRAME + 1)
      ⟨t, t, bps, f⟩ = (⟨t + 1, t + 1, bps, f ++ [cb]⟩, true)
  rw [runFrameLoop]
  rw [if_pos (by norm_num [TICKS_PER_FRAME] : t < t + TICKS_PER_FRAME)]
  simp only [portHalt, env0]
  rw [if_pos (by norm_num [TICKS_PER_FRAME] : t + 1 < t + TICKS_PER_FRAME)]
  simp only [hbp, if_pos rfl]
  rw [if_pos trivial]

/-- C1 amended: after `addBreakpoint(a, cb)`, a simulated early-stop
hit at `a` during the frame loop fires the callback exactly once for
that hit, but the firing path does not disarm the entry: the
breakpoint map still holds `(a, cb)` after the frame, and a second
simulated hit at `a` without re-registering fires the callback again
(the fired log grows to `[cb, cb]`).  One-shot behaviour exists only
because the injection callback itself calls `removeBreakpoint`. -/
theorem breakpoint_not_disarmed_by_firing (a cb : Nat) :
    ((runFrame (portHalt a) env0 (addBreakpoint ⟨0, 0, [], []⟩ a cb)).1).fired = [cb] ∧
    ((runFrame (portHalt a) env0 (addBreakpoint ⟨0, 0, [], []⟩ a cb)).1).breakpoints =
      [(a, cb)] ∧
    ((runFrame (portHalt a) env0
        ((runFrame (portHalt a) env0 (addBreakpoint ⟨0, 0, [], []⟩ a cb)).1)).1).fired =
      [cb, cb] := by
  have hbp : bpLookup [(a, cb)] a = some cb := by
    simp [bpLookup]
  have h0 : addBreakpoint (⟨0, 0, [], []⟩ : EmuState Nat) a cb = ⟨0, 0, [(a, cb)], []⟩ := rfl
  have h1 := runFrame_portHalt_fires a cb 0 [(a, cb)] [] hbp
  have h2 := runFrame_portHalt_fires a cb 1 [(a, cb)] [cb] hbp
  rw [h0, h1]
  simp only [List.nil_append] at h1 ⊢
  rw [h2]
  exact ⟨trivial, trivial, rfl⟩

/-- C1 counterexample: at address 0x1665 with a counting callback, two
simulated hits without re-registering fire the callback twice — the
fired log after the second frame is `[0, 0]`, not the single firing
the one-shot contract demands. -/
theorem breakpoint_oneShot_cex :
    ((runFrame (portHalt 0x1665) env0
        ((runFrame (portHalt 0x1665) env0
            (addBreakpoint ⟨0, 0, [], []⟩ 0x1665 0)).1)).1).fired = [0, 0] ∧
    ¬ ((runFrame (portHalt 0x1665) env0
        ((runFrame (portHalt 0x1665) env0
            (addBreakpoint ⟨0, 0, [], []⟩ 0x1665 0)).1)).1).fired.length = 1 := by
  have hbp : bpLookup [(0x1665, 0)] 0x1665 = some 0 := by simp [bpLookup]
  have h0 : addBreakpoint (⟨0, 0, [], []⟩ : EmuState Nat) 0x1665 0 =
      ⟨0, 0, [(0x1665, 0)], []⟩ := rfl
  have h1 := runFrame_portHalt_fires 0x1665 0 0 [(0x1665, 0)] [] hbp
  have h2 := runFrame_portHalt_fires 0x1665 0 1 [(0x1665, 0)] [0] hbp
  rw [h0, h1]
  simp only [List.nil_append] at h1 ⊢
  rw [h2]
  exact ⟨rfl, by decide⟩

/-! ## C5: at most one generation task in flight -/

/-- The in-flight count mirrors the `generating` guard. -/
def svcInv (s : SvcState Nat) : Prop :=
  s.active = (if s.generating then 1 else 0)

theorem svcStep_inv (op : SvcOp) (s : SvcState Nat) (n : Nat)
    (h : svcInv s) : svcInv (svcStep op (s, n)).1 := by
  cases op with
  | prefetchOp =>
      simp only [svcStep, svcPrefetch]
      split
      · exact h
      · next hcond =>
          have hg : s.generating = false := by
            rcases not_or.mp hcond with ⟨h1, _⟩
            simpa using h1
          simp only [svcInv, startGeneration] at h ⊢
          simp [hg] at h
          simp [h]
  | getNextOp c =>
      simp only [svcStep, svcGetNextArrive]
      split
      · exact h
      · split
        · exact h
        · next hg =>
            have hg' : s.generating = false := by simpa using hg
            simp only [svcInv, startGeneration] at h ⊢
            simp [hg'] at h
            simp [h]
  | getNextIfReadyOp c =>
      simp only [svcStep, svcGetNextIfReady]
      split <;> exact h
  | completeOp =>
      simp only [svcStep, svcComplete]
      split
      · next hg =>
          simp only [svcInv] at h ⊢
          simp [hg] at h
          simp [h]
      · exact h
  | failOp =>
      simp only [svcStep, svcFail]
      split
      · next hg =>
          simp only [svcInv] at h ⊢
          simp [hg] at h
          simp [h]
      · exact h

theorem svcRun_inv (ops : List SvcOp) :
    ∀ (s : SvcState Nat) (n : Nat), svcInv s → svcInv (svcRun ops (s, n)).1 := by
  induction ops with
  | nil => intro s n h; exact h
  | cons op rest ih =>
      intro s n h
      show svcInv (svcRun rest (svcStep op (s, n))).1
      have := svcStep_inv op s n h
      exact ih (svcStep op (s, n)).1 (svcStep op (s, n)).2 this

/-- C5: after any sequence of `prefetch` / `getNext` /
`getNextIfReady` calls and task completions or failures from the
initial state, the number of in-flight generation tasks is 0 or 1,
never 2 or more; `prefetch()` is a no-op whenever a task is in flight
or an item is queued, and otherwise starts exactly one background
task, whose result a (waiter-free) completion pushes onto the queue
tail. -/
theorem prefetch_single_inflight (ops : List SvcOp) :
    ((svcRun ops (svcInit, 0)).1).active ≤ 1 ∧
    (∀ s' : SvcState Nat, (s'.generating = true ∨ 0 < s'.queue.length) →
      svcPrefetch s' = s') ∧
    (∀ s' : SvcState Nat, s'.generating = false → s'.queue = [] →
      svcPrefetch s' = startGeneration s' ∧
      (startGeneration s').active = s'.active + 1 ∧
      (startGeneration s').generating = true) ∧
    (∀ (x : Nat) (s' : SvcState Nat), s'.generating = true → s'.waiters = [] →
      (svcComplete x s').queue = s'.queue ++ [x]) := by
  refine ⟨?_, ?_, ?_, ?_⟩
  · have h := svcRun_inv ops svcInit 0 (by simp [svcInv, svcInit])
    unfold svcInv at h
    split at h <;> omega
  · intro s' hb
    unfold svcPrefetch
    rw [if_pos hb]
  · intro s' hg hq'
    refine ⟨?_, rfl, rfl⟩
    unfold svcPrefetch
    rw [if_neg (by simp [hg, hq'])]
  · intro x s' hg hw
    unfold svcComplete
    rw [if_pos hg, hw]
    rfl

/-- C5 witness: the trace bound on a concrete 4-op trace, the no-op on
a concrete busy state, and the tail push on a concrete completion. -/
theorem prefetch_single_inflight_witness :
    ((svcRun [SvcOp.prefetchOp, SvcOp.prefetchOp, SvcOp.completeOp, SvcOp.getNextOp 1]
        (svcInit, 0)).1).active ≤ 1 ∧
    svcPrefetch (⟨[], true, [], [], 1⟩ : SvcState Nat) = ⟨[], true, [], [], 1⟩ ∧
    (svcComplete 7 (⟨[], true, [], [], 1⟩ : SvcState Nat)).queue = [] ++ [7] :=
  ⟨(prefetch_single_inflight
      [SvcOp.prefetchOp, SvcOp.prefetchOp, SvcOp.completeOp, SvcOp.getNextOp 1]).1,
    (prefetch_single_inflight []).2.1 ⟨[], true, [], [], 1⟩ (Or.inl rfl),
    (prefetch_single_inflight []).2.2.2 7 ⟨[], true, [], [], 1⟩ rfl rfl⟩

/-! ## C2: delivery order and uniqueness -/

/-- The creature identities handed out so far, in delivery order. -/
def deliveredIds (s : SvcState Nat) : List Nat := s.delivered.map Prod.snd

/-- The delivery-order invariant: everything delivered or queued is
strictly ordered (completion order), below the completion counter; a
running task means an empty queue; no task means no awaiters. -/
def svcOrderInv (s : SvcState Nat) (n : Nat) : Prop :=
  List.Pairwise (· < ·) (deliveredIds s ++ s.queue) ∧
  (∀ i ∈ deliveredIds s ++ s.queue, i < n) ∧
  (s.generating = true → s.queue = []) ∧
  (s.generating = false → s.waiters = [])

theorem svcStep_orderInv (op : SvcOp) (s : SvcState Nat) (n : Nat)
    (h : svcOrderInv s n)
    (hok : op = .completeOp → s.waiters.length ≤ 1) :
    svcOrderInv (svcStep op (s, n)).1 (svcStep op (s, n)).2 := by
  obtain ⟨hpw, hlt, hgq, hgw⟩ := h
  cases op with
  | prefetchOp =>
      simp only [svcStep, svcPrefetch]
      split
      · exact ⟨hpw, hlt, hgq, hgw⟩
      · next hcond =>
          have hq : s.queue = [] := by
            rcases not_or.mp hcond with ⟨-, h2⟩
            exact List.eq_nil_of_length_eq_zero (by omega)
          exact ⟨hpw, hlt, fun _ => hq,
            fun habs => by simp [startGeneration] at habs⟩
  | getNextOp c =>
      simp only [svcStep, svcGetNextArrive]
      split
      · next x rest heq =>
          dsimp only [deliveredIds] at hpw hlt
          rw [heq] at hpw hlt
          refine ⟨?_, ?_, ?_, hgw⟩
          · dsimp only [deliveredIds]
            simpa [List.append_assoc] using hpw
          · intro i hi
            dsimp only [deliveredIds] at hi
            apply hlt
            simpa using hi
          · intro hgen
            exact absurd (hgq hgen) (by simp [heq])
      · next heq =>
          split
          · next hgen =>
              refine ⟨hpw, hlt, hgq, ?_⟩
              intro habs
              rw [habs] at hgen
              simp at hgen
          · next hgen =>
              refine ⟨hpw, hlt, fun _ => heq, ?_⟩
              intro habs
              simp [startGeneration] at habs
  | getNextIfReadyOp c =>
      simp only [svcStep, svcGetNextIfReady]
      split
      · next x rest heq =>
          dsimp only [deliveredIds] at hpw hlt
          rw [heq] at hpw hlt
          refine ⟨?_, ?_, ?_, hgw⟩
          · dsimp only [deliveredIds]
            simpa [List.append_assoc] using hpw
          · intro i hi
            dsimp only [deliveredIds] at hi
            apply hlt
            simpa using hi
          · intro hgen
            exact absurd (hgq hgen) (by simp [heq])
      · exact ⟨hpw, hlt, hgq, hgw⟩
  | completeOp =>
      simp only [svcStep, svcComplete]
      split
      · next hgen =>
          have hq : s.queue = [] := hgq hgen
          have hlen := hok rfl
          have hpw' : List.Pairwise (· < ·) (deliveredIds s) := by
            simpa [hq] using hpw
          have hlt' : ∀ i ∈ deliveredIds s, i < n := by
            intro i hi
            exact hlt i (by simp [hq, hi])
          have hpw2 : List.Pairwise (· < ·) (deliveredIds s ++ [n]) := by
            rw [List.pairwise_append]
            refine ⟨hpw', List.pairwise_singleton _ _, ?_⟩
            intro a ha b hb
            simp only [List.mem_singleton] at hb
            subst hb
            exact hlt' a ha
          have hlt2 : ∀ i ∈ deliveredIds s ++ [n], i < n + 1 := by
            intro i hi
            rcases List.mem_append.mp hi with hi | hi
            · exact Nat.lt_succ_of_lt (hlt' i hi)
            · simp only [List.mem_singleton] at hi
              omega
          dsimp only [deliveredIds] at hpw2 hlt2
          cases hw : s.waiters with
          | nil =>
              refine ⟨?_, ?_, ?_, fun _ => rfl⟩
              · dsimp only [deliveredIds]
                simpa [waitersConsume, hq] using hpw2
              · intro i hi
                dsimp only [deliveredIds] at hi
                apply hlt2
                simpa [waitersConsume, hq] using hi
              · intro habs
                simp at habs
          | cons c1 wrest =>
              cases wrest with
              | nil =>
                  refine ⟨?_, ?_, ?_, fun _ => rfl⟩
                  · dsimp only [deliveredIds]
                    simpa [waitersConsume, hq] using hpw2
                  · intro i hi
                    dsimp only [deliveredIds] at hi
                    apply hlt2
                    simpa [waitersConsume, hq] using hi
                  · intro habs
                    simp at habs
              | cons c2 wrest2 =>
                  rw [hw] at hlen
                  simp at hlen
      · next hgen =>
          exact ⟨hpw, fun i hi => Nat.lt_succ_of_lt (hlt i hi), hgq, hgw⟩
  | failOp =>
      simp only [svcStep, svcFail]
      split
      · refine ⟨hpw, hlt, ?_, fun _ => rfl⟩
        intro habs
        simp at habs
      · exact ⟨hpw, hlt, hgq, hgw⟩

theorem svcRun_orderInv (ops : List SvcOp) :
    ∀ (s : SvcState Nat) (n : Nat), svcOrderInv s n →
      svcLoneAwaiters ops (s, n) = true →
      svcOrderInv (svcRun ops (s, n)).1 (svcRun ops (s, n)).2 := by
  induction ops with
  | nil => intro s n h _; exact h
  | cons op rest ih =>
      intro s n h hok
      rw [svcLoneAwaiters, Bool.and_eq_true] at hok
      have hstep := svcStep_orderInv op s n h (of_decide_eq_true hok.1)
      exact ih (svcStep op (s, n)).1 (svcStep op (s, n)).2 hstep hok.2

/-- C2 amended: when no two `getNext()` calls await the same
generation task, every delivered creature identity is handed out in
strictly increasing completion order and no creature is delivered
twice — neither shared between `getNextIfReady()` and `getNext()` nor
between two `getNext()` calls.  When two `getNext()` calls do await
the same in-flight task, both receive that task's creature (the
pending promise is shared), as the duplicate-delivery counterexample
shows. -/
theorem getNext_completion_order (ops : List SvcOp)
    (hok : svcLoneAwaiters ops (svcInit, 0) = true) :
    List.Pairwise (· < ·) (deliveredIds (svcRun ops (svcInit, 0)).1) ∧
    (deliveredIds (svcRun ops (svcInit, 0)).1).Nodup := by
  have h0 : svcOrderInv svcInit 0 :=
    ⟨by simp [deliveredIds, svcInit], by simp [deliveredIds, svcInit],
      fun _ => rfl, fun _ => rfl⟩
  obtain ⟨hpw, -, -, -⟩ := svcRun_orderInv ops svcInit 0 h0 hok
  have hleft := (List.pairwise_append.mp hpw).1
  exact ⟨hleft, hleft.imp Nat.ne_of_lt⟩

/-- C2 witness: a lone-awaiter trace with a pre-fetch, a completion, a
non-blocking consume, then a fresh `getNext` with its own task. -/
theorem getNext_completion_order_witness :
    svcLoneAwaiters
      [SvcOp.prefetchOp, SvcOp.completeOp, SvcOp.getNextIfReadyOp 3,
        SvcOp.getNextOp 1, SvcOp.completeOp] (svcInit, 0) = true ∧
    (deliveredIds ((svcRun
      [SvcOp.prefetchOp, SvcOp.completeOp, SvcOp.getNextIfReadyOp 3,
        SvcOp.getNextOp 1, SvcOp.completeOp] (svcInit, 0)).1)).Nodup :=
  ⟨by decide,
    (getNext_completion_order
      [SvcOp.prefetchOp, SvcOp.completeOp, SvcOp.getNextIfReadyOp 3,
        SvcOp.getNextOp 1, SvcOp.completeOp] (by decide)).2⟩

/-- C2 counterexample: two `getNext()` calls awaiting the same
in-flight generation both receive creature 0 — one creature delivered
to two different callers, so the claimed exactly-once delivery fails
on the code. -/
theorem getNext_duplicate_delivery_cex :
    ((svcRun [SvcOp.prefetchOp, SvcOp.getNextOp 1, SvcOp.getNextOp 2, SvcOp.completeOp]
        (svcInit, 0)).1).delivered = [(1, 0), (2, 0)] ∧
    ¬ (deliveredIds ((svcRun
        [SvcOp.prefetchOp, SvcOp.getNextOp 1, SvcOp.getNextOp 2, SvcOp.completeOp]
        (svcInit, 0)).1)).Nodup := by
  decide

/-! ## C8: the battle-end poll -/

theorem setState_mem (s : Sys) (st : BattleState) : (setState s st).mem = s.mem := by
  unfold setState; split <;> rfl

theorem setState_battleCount (s : Sys) (st : BattleState) :
    (setState s st).battleCount = s.battleCount := by
  unfold setState; split <;> rfl

theorem setState_lastBattleState (s : Sys) (st : BattleState) :
    (setState s st).lastBattleState = s.lastBattleState := by
  unfold setState; split <;> rfl

theorem setState_events_mono (s : Sys) (st : BattleState) (e : BCEvent)
    (he : e ∈ s.events) : e ∈ (setState s st).events := by
  unfold setState
  split
  · exact he
  · exact List.mem_append_left _ he

theorem setupTestBattleMode_events (s : Sys) :
    (setupTestBattleMode s).events = s.events := by
  unfold setupTestBattleMode; split <;> rfl

theorem setupTestBattleMode_battleCount (s : Sys) :
    (setupTestBattleMode s).battleCount = s.battleCount := by
  unfold setupTestBattleMode; split <;> rfl

theorem installInjectionBreakpoint_events (s : Sys) :
    (installInjectionBreakpoint s).events = s.events := by
  unfold installInjectionBreakpoint; split <;> rfl

theorem installInjectionBreakpoint_battleCount (s : Sys) :
    (installInjectionBreakpoint s).battleCount = s.battleCount := by
  unfold installInjectionBreakpoint; split <;> rfl

theorem trackGameReady_mem (s : Sys) : (trackGameReady s).mem = s.mem := by
  unfold trackGameReady
  split
  · rw [setState_mem]
  · rfl

theorem trackGameReady_lastBattleState (s : Sys) :
    (trackGameReady s).lastBattleState = s.lastBattleState := by
  unfold trackGameReady
  split
  · rw [setState_lastBattleState]
  · rfl

theorem trackGameReady_battleCount (s : Sys) :
    (trackGameReady s).battleCount = s.battleCount := by
  unfold trackGameReady
  split
  · rw [setState_battleCount]
  · rfl

theorem prepareNextPokemon_battleCount (s : Sys) :
    (prepareNextPokemon s).battleCount = s.battleCount := by
  unfold prepareNextPokemon
  split
  · split
    · rw [installInjectionBreakpoint_battleCount]
      dsimp only
      rw [setState_battleCount, setupTestBattleMode_battleCount]
    · dsimp only
      rw [setState_battleCount]
  · dsimp only
    rw [setState_battleCount]

theorem prepareNextPokemon_events_mono (s : Sys) (e : BCEvent) (he : e ∈ s.events) :
    e ∈ (prepareNextPokemon s).events := by
  unfold prepareNextPokemon
  split
  · split
    · rw [installInjectionBreakpoint_events]
      dsimp only
      apply setState_events_mono
      rw [setupTestBattleMode_events]
      exact List.mem_append_left _ he
    · dsimp only
      exact setState_events_mono _ _ _ he
  · dsimp only
    exact setState_events_mono _ _ _ he

theorem updateBody_battleEnd (s : Sys)
    (hcell : s.mem WRAM.wIsInBattle = 0) (hlast : s.lastBattleState ≠ 0) :
    (updateBody s).battleCount = s.battleCount + 1 ∧
    BCEvent.battleEnd (resultMap (s.mem WRAM.wBattleResult)) ∈ (updateBody s).events := by
  unfold updateBody
  dsimp only
  rw [trackGameReady_mem, trackGameReady_lastBattleState]
  have hc1 : ¬(s.mem WRAM.wIsInBattle ≠ 0 ∧ s.lastBattleState = 0) := by simp [hcell]
  have hc2 : s.mem WRAM.wIsInBattle = 0 ∧ s.lastBattleState ≠ 0 := ⟨hcell, hlast⟩
  rw [if_neg hc1]
  rw [trackGameReady_mem, trackGameReady_lastBattleState]
  rw [if_pos hc2]
  constructor
  · rw [prepareNextPokemon_battleCount]
    dsimp only
    rw [trackGameReady_battleCount]
  · apply prepareNextPokemon_events_mono
    dsimp only
    apply List.mem_append_right
    exact List.mem_singleton_self _

/-- The concrete creature produced by the pre-fetch in the scenario. -/
def scenarioPokemon : GeneratedPokemon :=
  { name := ['F', 'L', 'A', 'M', 'O', 'R', 'B']
    level := 10
    baseStats := some ⟨60, 70, 65, 80, 75⟩
    moves := [0x21, 0x0A, 0x62, 0x2C]
    sprite2bpp := [0xFF, 0x00] }

/-- Scenario, step 1: ten frames with the battle-active cell at 0. -/
def scenarioS1 : Sys := updateN 10 (sysInit (fun _ => 0))

/-- Scenario, step 2: the guest enters a trainer battle (cell := 2). -/
def scenarioS2 : Sys :=
  { scenarioS1 with mem := writeMem scenarioS1.mem WRAM.wIsInBattle 2 }

/-- Scenario, step 3: ten frames — the poll sees the 0→2 edge and
starts the pre-fetch. -/
def scenarioS3 : Sys := updateN 10 scenarioS2

/-- Scenario, step 4: the background generation completes mid-battle. -/
def scenarioS4 : Sys :=
  { scenarioS3 with svc := svcComplete scenarioPokemon scenarioS3.svc }

/-- Scenario, step 5: the battle ends with outcome code 1 (lose). -/
def scenarioS5 : Sys :=
  { scenarioS4 with
      mem := writeMem (writeMem scenarioS4.mem WRAM.wBattleResult 1) WRAM.wIsInBattle 0 }

/-- Scenario, step 6: ten frames — the poll sees the 2→0 edge. -/
def scenarioFinal : Sys := updateN 10 scenarioS5

set_option maxRecDepth 100000 in
/-- C8 amended: every poll observing the battle-active cell at 0 after
a non-zero reading increments the battle counter by exactly one and
emits a battle-ended event carrying the outcome code mapped as 0=win,
1=lose, 2=draw, 3=ran; in the 0→2→0 scenario with outcome code 1 the
counter goes from 0 to 1 and the notification sequence is
battle-started (`stateChanged in_battle`), then `battleEnd lose`, then
creature-ready (`pokemonGenerated`) — the creature-ready notification
fires after the battle-end one, when the controller consumes the
pre-fetched creature. -/
theorem battleEnd_poll (s : Sys) (hfr : 9 ≤ s.framesSinceLastCheck)
    (hcell : s.mem WRAM.wIsInBattle = 0) (hlast : s.lastBattleState ≠ 0) :
    ((update s).battleCount = s.battleCount + 1 ∧
      BCEvent.battleEnd (resultMap (s.mem WRAM.wBattleResult)) ∈ (update s).events) ∧
    (resultMap 0 = .win ∧ resultMap 1 = .lose ∧ resultMap 2 = .draw ∧
      resultMap 3 = .ran) ∧
    (scenarioFinal.battleCount = 1 ∧
      scenarioFinal.events =
        [BCEvent.stateChanged .idle, BCEvent.stateChanged .in_battle,
          BCEvent.battleEnd .lose, BCEvent.pokemonGenerated scenarioPokemon,
          BCEvent.stateChanged .idle]) := by
  refine ⟨?_, ⟨rfl, rfl, rfl, rfl⟩, ?_, ?_⟩
  · unfold update
    dsimp only
    rw [if_neg (by omega : ¬ (s.framesSinceLastCheck + 1 < 10))]
    exact updateBody_battleEnd _ hcell hlast
  · decide
  · decide

/-- C8 witness: a steady-state poll point with the cell at 0, the last
reading 2 and outcome code 1. -/
def battleEndWitnessSys : Sys :=
  { sysInit (fun a => if a = WRAM.wBattleResult then 1 else 0) with
      framesSinceLastCheck := 9
      gameReady := true
      lastBattleState := 2 }

set_option maxRecDepth 100000 in
theorem battleEnd_poll_witness :
    (update battleEndWitnessSys).battleCount = battleEndWitnessSys.battleCount + 1 ∧
    BCEvent.battleEnd
        (resultMap (battleEndWitnessSys.mem WRAM.wBattleResult)) ∈
      (update battleEndWitnessSys).events :=
  (battleEnd_poll battleEndWitnessSys (by decide) (by decide) (by decide)).1

set_option maxRecDepth 100000 in
/-- C8 counterexample: in the 0→2→0 scenario with outcome code 1, the
battle-ended notification precedes the creature-ready one (indices 2
and 3 of the event log), refuting the claimed order battleStarted,
creatureReady, battleEnded("lose"). -/
theorem battleEnd_event_order_cex :
    scenarioFinal.events.indexOf (BCEvent.battleEnd .lose) = 2 ∧
    scenarioFinal.events.indexOf (BCEvent.pokemonGenerated scenarioPokemon) = 3 ∧
    scenarioFinal.events.indexOf (BCEvent.battleEnd .lose) <
      scenarioFinal.events.indexOf (BCEvent.pokemonGenerated scenarioPokemon) := by
  refine ⟨?_, ?_, ?_⟩ <;> decide

end PkmnFever
